import Mathlib

/-!
Verification development for the rss-articles repository.

The repository ships a Next.js frontend (dashboard, feeds, settings and
prompts pages) that drives a FastAPI backend pipeline (fetch → filter →
classify → generate).  The frontend pages are embedded directly from the
TypeScript sources; the backend pipeline (rule engine, classifier adapter,
orchestrator, run-status tracker) is not part of the source tree here, so
it is modelled from the specification, with each such definition marked
`Modelled from the spec:` in its doc comment.
-/

namespace RssArticles

/-! ## Data model (spec §3) -/

/-- Modelled from the spec: the backend `Article` record (backend sources are
not in the tree).  Timestamps are measured in whole days so that
`now - published_at` is the article's age in days. -/
structure Article where
  id : String
  title : String
  url : String
  source_label : String
  published_at : Int
  full_text : String
  word_count : Nat
  language : String
deriving DecidableEq

/-- Modelled from the spec: the backend `RuleSet` record of §3. -/
structure RuleSet where
  include_any : List String
  include_all : List String
  exclude_any : List String
  min_words : Nat
  max_age_days : Nat
  language : String
  source_weight : ℚ
deriving DecidableEq

/-- Modelled from the spec: result of the Rule Engine contract
`evaluate(article, ruleset) -> PassResult` (§4.1). -/
structure PassResult where
  passed : Bool
  failed_rule : Option String
deriving DecidableEq

/-! ## Rule engine (spec §4.1, backend not in the tree) -/

/-- Whether the first list is a prefix of the second, as booleans. -/
def isPrefixList : List Char → List Char → Bool
  | [], _ => true
  | _ :: _, [] => false
  | a :: as, b :: bs => a == b && isPrefixList as bs

/-- Whether `needle` occurs as a contiguous substring of `hay`. -/
def containsSub (needle : List Char) : List Char → Bool
  | [] => isPrefixList needle []
  | c :: rest => isPrefixList needle (c :: rest) || containsSub needle rest

/-- Case-insensitive substring test on strings, as used by the term checks
of the rule engine (spec §4.1: "case-insensitive substring"). -/
def containsCI (needle hay : String) : Bool :=
  containsSub (needle.toList.map Char.toLower) (hay.toList.map Char.toLower)

/-- The text the keyword checks scan: title plus full text (spec §4.1:
"in title+text"). -/
def hayOf (a : Article) : String :=
  a.title ++ " " ++ a.full_text

/-- Check 1 of §4.1: passes unless `now - published_at > max_age_days`. -/
def passAgeCheck (now : Int) (a : Article) (r : RuleSet) : Bool :=
  ! decide (now - a.published_at > (r.max_age_days : Int))

/-- Check 2 of §4.1: passes unless `word_count < min_words`. -/
def passWordsCheck (a : Article) (r : RuleSet) : Bool :=
  ! decide (a.word_count < r.min_words)

/-- Check 3 of §4.1: passes unless the ruleset language is non-empty and the
article language differs. -/
def passLanguageCheck (a : Article) (r : RuleSet) : Bool :=
  ! (r.language != "" && a.language != r.language)

/-- Check 4 of §4.1: passes unless some exclude term appears
(case-insensitive substring) in title+text. -/
def passExcludeCheck (a : Article) (r : RuleSet) : Bool :=
  ! r.exclude_any.any (fun t => containsCI t (hayOf a))

/-- Check 5 of §4.1: passes unless some `include_all` term is absent. -/
def passIncludeAllCheck (a : Article) (r : RuleSet) : Bool :=
  r.include_all.all (fun t => containsCI t (hayOf a))

/-- Check 6 of §4.1: passes unless `include_any` is non-empty and none of
its terms appear. -/
def passIncludeAnyCheck (a : Article) (r : RuleSet) : Bool :=
  ! (! r.include_any.isEmpty && ! r.include_any.any (fun t => containsCI t (hayOf a)))

/-- Modelled from the spec: the Rule Engine `evaluate` (§4.1, backend not in
the tree).  Checks run in the fixed order `max_age_days`, `min_words`,
`language`, `exclude_any`, `include_all`, `include_any`; the first failing
check short-circuits and names the failed rule. -/
def evaluate (now : Int) (a : Article) (r : RuleSet) : PassResult :=
  if ! passAgeCheck now a r then
    { passed := false, failed_rule := some "max_age_days" }
  else if ! passWordsCheck a r then
    { passed := false, failed_rule := some "min_words" }
  else if ! passLanguageCheck a r then
    { passed := false, failed_rule := some "language" }
  else if ! passExcludeCheck a r then
    { passed := false, failed_rule := some "exclude_any" }
  else if ! passIncludeAllCheck a r then
    { passed := false, failed_rule := some "include_all" }
  else if ! passIncludeAnyCheck a r then
    { passed := false, failed_rule := some "include_any" }
  else
    { passed := true, failed_rule := none }

/-- The six checks of the rule engine in the order fixed by the spec, each
paired with the boolean saying whether the article passes that check. -/
def orderedChecks (now : Int) (a : Article) (r : RuleSet) : List (String × Bool) :=
  [("max_age_days", passAgeCheck now a r),
   ("min_words", passWordsCheck a r),
   ("language", passLanguageCheck a r),
   ("exclude_any", passExcludeCheck a r),
   ("include_all", passIncludeAllCheck a r),
   ("include_any", passIncludeAnyCheck a r)]

/-- The name of the first check of `orderedChecks` that the article fails,
if any. -/
def firstFailingRule (now : Int) (a : Article) (r : RuleSet) : Option String :=
  ((orderedChecks now a r).find? (fun c => ! c.2)).map (·.1)

/-- Modelled from the spec: combining the global and the feed-specific rule
set is two-pass — the global rule set is evaluated first and must pass,
then the feed-specific one (§3, §4.1). -/
def evaluateCombined (now : Int) (a : Article) (g f : RuleSet) : PassResult :=
  let rg := evaluate now a g
  if rg.passed then evaluate now a f else rg

/-! ## Classifier adapter (spec §4.3, backend not in the tree) -/

/-- Modelled from the spec: the raw structured response of the external
scoring model, before the adapter computes `importance` and `keep` (§4.3).
Scores are rationals standing in for the declared numeric scale. -/
structure RawScores where
  topic : String
  relevance : ℚ
  novelty : ℚ
  authority : ℚ
  actionability : ℚ
  reason_short : String
deriving DecidableEq

/-- Modelled from the spec: the configured weights of the four sub-scores
("weights are configuration, not hard-coded", §4.3). -/
structure Weights where
  relevance : ℚ
  novelty : ℚ
  authority : ℚ
  actionability : ℚ
deriving DecidableEq

/-- Modelled from the spec: `ScoreResult` (§3), produced once per classified
article. -/
structure ScoreResult where
  topic : String
  relevance : ℚ
  novelty : ℚ
  authority : ℚ
  actionability : ℚ
  importance : ℚ
  keep : Bool
  reason_short : String
deriving DecidableEq

/-- Modelled from the spec: importance is "a declared weighted function of
the four sub-scores ... multiplied by `source_weight`" (§4.3). -/
def importanceOf (w : Weights) (sw : ℚ) (r : RawScores) : ℚ :=
  (w.relevance * r.relevance + w.novelty * r.novelty +
   w.authority * r.authority + w.actionability * r.actionability) * sw

/-- Modelled from the spec: the adapter rejects responses whose numeric
fields are out of the declared range [0, 5] (§4.3). -/
def validRange (r : RawScores) : Bool :=
  decide (0 ≤ r.relevance ∧ r.relevance ≤ 5) &&
  decide (0 ≤ r.novelty ∧ r.novelty ≤ 5) &&
  decide (0 ≤ r.authority ∧ r.authority ≤ 5) &&
  decide (0 ≤ r.actionability ∧ r.actionability ≤ 5)

/-- Modelled from the spec: the Classifier Adapter (§4.3, backend not in the
tree).  The external model is an oracle returning `RawScores` or `none` for
a malformed response; the adapter validates ranges and computes
`importance` and `keep := importance >= importance_threshold`.  A `none`
overall result stands for `ClassificationError`. -/
def classifyAdapter (w : Weights) (threshold sw : ℚ)
    (oracle : Article → Option RawScores) (a : Article) : Option ScoreResult :=
  match oracle a with
  | none => none
  | some raw =>
    if validRange raw then
      some { topic := raw.topic
             relevance := raw.relevance
             novelty := raw.novelty
             authority := raw.authority
             actionability := raw.actionability
             importance := importanceOf w sw raw
             keep := decide (importanceOf w sw raw ≥ threshold)
             reason_short := raw.reason_short }
    else none

/-! ## Pipeline orchestrator (spec §4.5, backend not in the tree) -/

/-- Modelled from the spec: the status bucket of a processed article (§3). -/
inductive Status where
  | kept
  | skipped
  | filtered
deriving DecidableEq

/-- Modelled from the spec: `RunItem`, the unit of output aggregation (§3). -/
structure RunItem where
  article : Article
  score_result : Option ScoreResult
  linkedin_article : Option String
  personal_post : Option String
  status : Status
  reason : String

/-- Result of processing one article, together with the number of content
generation calls the orchestrator issued for it (0 or 2). -/
structure StepOut where
  item : RunItem
  genCalls : Nat

/-- Modelled from the spec: the per-run environment the orchestrator threads
through article processing — the clock, the global rules, the classifier
configuration, and the external oracles (classifier and the two
generators; a generator returning `none` stands for `GenerationError`). -/
structure Env where
  now : Int
  globalRules : RuleSet
  weights : Weights
  threshold : ℚ
  classifyRaw : Article → Option RawScores
  gen1 : Article → Option String
  gen2 : Article → Option String

/-- Modelled from the spec: the per-article step of the orchestrator (§4.5
steps 2–4).  The article must pass both rule sets; survivors are
classified; kept articles get the two generation calls; failures at each
stage produce the `filtered`, `skipped` and `kept` buckets with the
documented reasons. -/
def processArticle (env : Env) (fr : RuleSet) (a : Article) : StepOut :=
  let pr := evaluateCombined env.now a env.globalRules fr
  if pr.passed then
    match classifyAdapter env.weights env.threshold fr.source_weight env.classifyRaw a with
    | none =>
      { item := { article := a, score_result := none, linkedin_article := none,
                  personal_post := none, status := Status.skipped,
                  reason := "classification_error" }
        genCalls := 0 }
    | some sr =>
      if sr.keep then
        { item := { article := a, score_result := some sr,
                    linkedin_article := env.gen1 a, personal_post := env.gen2 a,
                    status := Status.kept, reason := sr.reason_short }
          genCalls := 2 }
      else
        { item := { article := a, score_result := some sr, linkedin_article := none,
                    personal_post := none, status := Status.skipped,
                    reason := sr.reason_short }
          genCalls := 0 }
  else
    { item := { article := a, score_result := none, linkedin_article := none,
                personal_post := none, status := Status.filtered,
                reason := pr.failed_rule.getD "" }
      genCalls := 0 }

/-- Modelled from the spec: processing the articles of one feed under the
remaining run-wide budget; `none` means unlimited, and the budget counts
every article that reaches the filtering stage (§4.5 step 2). -/
def processFeedArticles (env : Env) (fr : RuleSet) :
    Option Nat → List Article → List StepOut × Option Nat
  | b, [] => ([], b)
  | some 0, _ :: _ => ([], some 0)
  | some (n + 1), a :: rest =>
    let p := processFeedArticles env fr (some n) rest
    (processArticle env fr a :: p.1, p.2)
  | none, a :: rest =>
    let p := processFeedArticles env fr none rest
    (processArticle env fr a :: p.1, p.2)

/-- Modelled from the spec: the feed loop of the orchestrator (§4.5).  Each
feed comes with the fetcher's result; `none` stands for `FetchError`, which
skips the feed and continues with the remaining ones. -/
def processFeeds (env : Env) :
    Option Nat → List (RuleSet × Option (List Article)) → List StepOut
  | _, [] => []
  | b, (_, none) :: rest => processFeeds env b rest
  | b, (fr, some arts) :: rest =>
    let p := processFeedArticles env fr b arts
    p.1 ++ processFeeds env p.2 rest

/-- Number of run items carrying the given status. -/
def countStatus (s : Status) (items : List RunItem) : Nat :=
  items.countP (fun i => decide (i.status = s))

/-- Modelled from the spec: `RunSummary` (§4.5).  Wall-clock duration is not
modelled and is reported as zero. -/
structure RunSummary where
  kept_count : Nat
  skipped_count : Nat
  filtered_count : Nat
  duration_seconds : ℚ
  items : List RunItem
  dry_run : Bool

/-- Modelled from the spec: aggregation of the processed items into the run
summary, each count being the number of items in that bucket (§4.5). -/
def mkSummary (dr : Bool) (items : List RunItem) : RunSummary :=
  { kept_count := countStatus Status.kept items
    skipped_count := countStatus Status.skipped items
    filtered_count := countStatus Status.filtered items
    duration_seconds := 0
    items := items
    dry_run := dr }

/-! ## Run status tracker, config store and run entry (spec §3, §4.6, §6) -/

/-- Modelled from the spec: the process-wide `RunStatus` (§3). -/
structure RunStatus where
  running : Bool
  message : String
  total_articles : Nat
  processed_articles : Nat
deriving DecidableEq

/-- Modelled from the spec: one configured feed — its URL, its feed-specific
rule set and its enabled flag (§3 `Config`, and the `FeedRule` shape of the
feeds page). -/
structure FeedCfg where
  url : String
  label : String
  ruleset : RuleSet
  enabled : Bool

/-- Modelled from the spec: the configuration loaded once per run (§3). -/
structure Config where
  feeds : List FeedCfg
  globalRules : RuleSet
  weights : Weights
  threshold : ℚ

/-- Modelled from the spec: the external stores the run can read and, when
committing, write — the config store, the secret store, and the
persistence adapter's documents (§6). -/
structure World where
  config : Config
  openaiKey : Option String
  notionKey : Option String
  docs : List RunItem

/-- Modelled from the spec: the arguments of the run trigger
`{dry_run, limit?, feeds?}` (§4.5, §6). -/
structure RunArgs where
  dry_run : Bool
  limit : Option Nat
  feeds : List String

/-- Modelled from the spec: the external collaborators of one run — the
clock, the feed fetcher (`none` stands for `FetchError`), the scoring
model and the two generators (§4.2–§4.4). -/
structure ExternalOracles where
  now : Int
  fetch : FeedCfg → Option (List Article)
  classifyRaw : Article → Option RawScores
  gen1 : Article → Option String
  gen2 : Article → Option String

/-- Modelled from the spec: the top-level errors `run()` itself can raise
(§7); per-item errors are absorbed into the items. -/
inductive RunError where
  | alreadyRunning
  | missingCredential
deriving DecidableEq

/-- Modelled from the spec: feed selection — an empty `feeds` argument means
all configured feeds, and only enabled feeds run (§4.5, README). -/
def selectFeeds (cfg : Config) (sel : List String) : List FeedCfg :=
  (if sel.isEmpty then cfg.feeds else
    cfg.feeds.filter (fun fc => sel.contains fc.url)).filter (fun fc => fc.enabled)

/-- Modelled from the spec: the body of a run that passed its preconditions —
fetch, process every selected feed under the budget, aggregate, and commit
kept items to the persistence adapter unless `dry_run` (§4.5). -/
def runBody (args : RunArgs) (ext : ExternalOracles) (w : World) :
    RunSummary × World :=
  let env : Env :=
    { now := ext.now, globalRules := w.config.globalRules,
      weights := w.config.weights, threshold := w.config.threshold,
      classifyRaw := ext.classifyRaw, gen1 := ext.gen1, gen2 := ext.gen2 }
  let fetched := (selectFeeds w.config args.feeds).map fun fc => (fc.ruleset, ext.fetch fc)
  let items := (processFeeds env args.limit fetched).map (fun o => o.item)
  let summary := mkSummary args.dry_run items
  (summary,
   if args.dry_run then w
   else { w with docs := w.docs ++ items.filter (fun i => decide (i.status = Status.kept)) })

/-- Modelled from the spec: the run entry point (§4.5, §7).  A run received
while another is active is rejected with `AlreadyRunningError` and leaves
the in-progress run's status untouched; a missing credential fails fast
with the status cleared; otherwise the pipeline runs to completion and the
status is cleared on exit. -/
def run (args : RunArgs) (ext : ExternalOracles) (w : World) (st : RunStatus) :
    Except RunError RunSummary × World × RunStatus :=
  if st.running then
    (Except.error RunError.alreadyRunning, w, st)
  else if w.openaiKey.isNone then
    (Except.error RunError.missingCredential, w, { st with running := false })
  else
    let b := runBody args ext w
    (Except.ok b.1, b.2,
     { running := false, message := "done",
       total_articles := b.1.items.length, processed_articles := b.1.items.length })

/-! ## Dashboard client (frontend dashboard page, in the tree)

The dashboard page keeps `isRunning`, `statusMessage` and `progress` state;
while `isRunning` is true an effect keeps a `setInterval` alive that polls
`/api/status/` every 2000 ms, and tears the interval down as soon as
`isRunning` turns false.  `runPipeline` posts `/api/run/` and clears
`isRunning` in its `finally` block when that request settles. -/

/-- The `RunStatus` snapshot shape the status endpoint returns to the
dashboard poller. -/
structure StatusSnapshot where
  running : Bool
  message : String
  total_articles : Nat
  processed_articles : Nat

/-- The dashboard state the polling logic touches. -/
structure ClientState where
  isRunning : Bool
  statusMessage : String
  progress : Option (Nat × Nat)
deriving DecidableEq

/-- The polling interval of the dashboard, in milliseconds
(`setInterval(..., 2000)`). -/
def pollIntervalMs : Nat := 2000

/-- One tick of the dashboard's status poll: on `running` it updates the
message and (when `total_articles > 0`) the progress pair; otherwise it
clears the message and the progress and stops the run display, which makes
the effect clear the interval. -/
def pollTick (st : StatusSnapshot) (c : ClientState) : ClientState :=
  if st.running then
    { c with
      statusMessage := st.message
      progress :=
        if st.total_articles > 0 then some (st.processed_articles, st.total_articles)
        else c.progress }
  else
    { c with statusMessage := "", progress := none, isRunning := false }

/-- The events that can change the dashboard's `isRunning` state while a run
is displayed: a status poll tick, or the `/api/run/` request settling
(resolving or failing), whose `finally` block clears `isRunning`. -/
inductive ClientEvent where
  | poll (st : StatusSnapshot)
  | runSettled

/-- Transition of the dashboard state under one client event. -/
def clientStep : ClientEvent → ClientState → ClientState
  | ClientEvent.poll st, c => pollTick st c
  | ClientEvent.runSettled, c => { c with isRunning := false }

/-- The query parameters `runPipeline` sends to `/api/run/`: `dry_run`
always, `limit` only when the entered limit is truthy (a number other than
zero), and one `feeds` entry per selected feed. -/
def buildRunParams (dryRun : Bool) (limit : Option Int) (feeds : List String) :
    List (String × String) :=
  [("dry_run", toString dryRun)] ++
  (match limit with
   | some n => if n ≠ 0 then [("limit", toString n)] else []
   | none => []) ++
  feeds.map (fun f => ("feeds", f))

/-! ## Global-rule keyword fields (frontend feeds page, in the tree)

`saveAll` serialises each keyword list by joining it with `','` (an empty
list becomes the empty string); `loadGlobalRules` parses the stored string
by splitting on `','`, trimming each piece, and dropping falsy (empty)
pieces, exactly as `processCommaField` does for the edit fields.  Terms
are embedded as lists of characters. -/

/-- The characters JavaScript's `String.prototype.trim` removes: the
WhiteSpace and LineTerminator code points. -/
def jsWhitespace (c : Char) : Bool :=
  [0x09, 0x0A, 0x0B, 0x0C, 0x0D, 0x20, 0xA0, 0x1680,
   0x2000, 0x2001, 0x2002, 0x2003, 0x2004, 0x2005, 0x2006, 0x2007,
   0x2008, 0x2009, 0x200A, 0x2028, 0x2029, 0x202F, 0x205F, 0x3000,
   0xFEFF].contains c.toNat

/-- JavaScript `s.trim()`: strip leading and trailing whitespace. -/
def jsTrim (l : List Char) : List Char :=
  List.rdropWhile jsWhitespace (List.dropWhile jsWhitespace l)

/-- JavaScript `terms.join(',')`. -/
def joinComma : List (List Char) → List Char
  | [] => []
  | [t] => t
  | t :: u :: rest => t ++ ',' :: joinComma (u :: rest)

/-- Accumulator-passing splitter behind `splitComma`; `cur` holds the
reversed characters of the piece being read. -/
def splitCommaAux (cur : List Char) : List Char → List (List Char)
  | [] => [cur.reverse]
  | c :: rest =>
    if c = ',' then cur.reverse :: splitCommaAux [] rest
    else splitCommaAux (c :: cur) rest

/-- JavaScript `s.split(',')`: the (always nonempty) list of pieces between
commas. -/
def splitComma (l : List Char) : List (List Char) :=
  splitCommaAux [] l

/-- Serialisation of a keyword list as done by `saveAll`
(`list.length > 0 ? list.join(',') : ''`). -/
def saveField (terms : List (List Char)) : List Char :=
  if terms.length > 0 then joinComma terms else []

/-- Parsing of a stored keyword string as done by `loadGlobalRules` and
`processCommaField` (`s.split(',').map(s => s.trim()).filter(Boolean)`). -/
def loadField (s : List Char) : List (List Char) :=
  ((splitComma s).map jsTrim).filter (fun t => ! t.isEmpty)

/-- Saving a keyword list and loading it back. -/
def roundTripField (terms : List (List Char)) : List (List Char) :=
  loadField (saveField terms)

/-! ## Sample values used by the witnesses -/

/-- A rule set with no constraints, passed by every fresh article. -/
def emptyRuleSet : RuleSet :=
  { include_any := [], include_all := [], exclude_any := [],
    min_words := 0, max_age_days := 10, language := "", source_weight := 1 }

/-- A rule set requiring at least 200 words. -/
def strictRuleSet : RuleSet :=
  { emptyRuleSet with min_words := 200 }

/-- A sample 80-word article published at day 0. -/
def sampleArticle : Article :=
  { id := "a1", title := "Sample", url := "https://example.com/a1",
    source_label := "Example", published_at := 0, full_text := "body",
    word_count := 80, language := "sv" }

/-- An external-model response scoring every dimension 1. -/
def lowRawScores : RawScores :=
  { topic := "Generativ AI", relevance := 1, novelty := 1, authority := 1,
    actionability := 1, reason_short := "low" }

/-- Equal unit weights for the four sub-scores. -/
def unitWeights : Weights :=
  { relevance := 1, novelty := 1, authority := 1, actionability := 1 }

/-- An environment whose classifier always returns `lowRawScores` (composite
importance 4 under `unitWeights`) against threshold 5, and whose
generators always fail. -/
def sampleEnv : Env :=
  { now := 0, globalRules := emptyRuleSet, weights := unitWeights,
    threshold := 5, classifyRaw := fun _ => some lowRawScores,
    gen1 := fun _ => none, gen2 := fun _ => none }

/-- A configuration with a single enabled feed carrying `emptyRuleSet`. -/
def sampleConfig : Config :=
  { feeds := [{ url := "https://example.com/rss", label := "Example",
                ruleset := emptyRuleSet, enabled := true }],
    globalRules := emptyRuleSet, weights := unitWeights, threshold := 5 }

/-- An external world with both credentials set and no persisted documents. -/
def sampleWorld : World :=
  { config := sampleConfig, openaiKey := some "sk", notionKey := some "nt",
    docs := [] }

/-- Oracles for a run fetching one copy of `sampleArticle` per feed. -/
def sampleOracles : ExternalOracles :=
  { now := 0, fetch := fun _ => some [sampleArticle],
    classifyRaw := fun _ => some lowRawScores,
    gen1 := fun _ => none, gen2 := fun _ => none }

/-- A run status with no run in progress. -/
def idleStatus : RunStatus :=
  { running := false, message := "", total_articles := 0, processed_articles := 0 }

/-- A run status of an in-progress run. -/
def busyStatus : RunStatus :=
  { running := true, message := "Bearbetar", total_articles := 3,
    processed_articles := 1 }

/-! ## Helper lemmas -/

theorem splitCommaAux_no_comma (l : List Char) (acc : List Char)
    (h : ∀ c ∈ l, c ≠ ',') :
    splitCommaAux acc l = [acc.reverse ++ l] := by
  induction l generalizing acc with
  | nil => simp [splitCommaAux]
  | cons c rest ih =>
    have hc : ¬ c = ',' := h c (by simp)
    rw [splitCommaAux, if_neg hc, ih (c :: acc) (fun d hd => h d (by simp [hd]))]
    simp

theorem splitCommaAux_append (l : List Char) (acc rest : List Char)
    (h : ∀ c ∈ l, c ≠ ',') :
    splitCommaAux acc (l ++ ',' :: rest) =
      (acc.reverse ++ l) :: splitCommaAux [] rest := by
  induction l generalizing acc with
  | nil => simp [splitCommaAux]
  | cons c l' ih =>
    have hc : ¬ c = ',' := h c (by simp)
    rw [List.cons_append, splitCommaAux, if_neg hc,
      ih (c :: acc) (fun d hd => h d (by simp [hd]))]
    simp

theorem splitComma_joinComma (ts : List (List Char)) (hne : ts ≠ [])
    (h : ∀ t ∈ ts, ∀ c ∈ t, c ≠ ',') :
    splitComma (joinComma ts) = ts := by
  induction ts with
  | nil => exact absurd rfl hne
  | cons t rest ih =>
    cases rest with
    | nil =>
      rw [joinComma, splitComma, splitCommaAux_no_comma t [] (h t (by simp))]
      simp
    | cons u rest' =>
      rw [joinComma, splitComma,
        splitCommaAux_append t [] _ (fun c hc => h t (by simp) c hc)]
      have := ih (by simp) (fun v hv c hc => h v (by simp [hv]) c hc)
      rw [splitComma] at this
      rw [this]
      simp

theorem splitCommaAux_pieces_no_comma (s : List Char) (acc : List Char)
    (hacc : ',' ∉ acc) :
    ∀ p ∈ splitCommaAux acc s, ',' ∉ p := by
  induction s generalizing acc with
  | nil =>
    intro p hp
    rw [splitCommaAux] at hp
    simp only [List.mem_singleton] at hp
    subst hp
    simpa using hacc
  | cons c rest ih =>
    intro p hp
    by_cases hc : c = ','
    · subst hc
      rw [splitCommaAux, if_pos rfl] at hp
      rcases List.mem_cons.mp hp with h1 | h2
      · subst h1; simpa using hacc
      · exact ih [] (by simp) p h2
    · rw [splitCommaAux, if_neg hc] at hp
      refine ih (c :: acc) ?_ p hp
      simp only [List.mem_cons, not_or]
      exact ⟨fun he => hc he.symm, hacc⟩

theorem dropWhile_rdropWhile (m : List Char)
    (h : List.dropWhile jsWhitespace m = m) :
    List.dropWhile jsWhitespace (List.rdropWhile jsWhitespace m) =
      List.rdropWhile jsWhitespace m := by
  obtain ⟨t, ht⟩ := ( List.rdropWhile_prefix jsWhitespace m)
  cases hr : List.rdropWhile jsWhitespace m with
  | nil => simp
  | cons a l' =>
    rw [hr] at ht
    have hm : m = a :: (l' ++ t) := by rw [← ht]; simp
    have hna : ¬ jsWhitespace a = true := by
      rw [hm, List.dropWhile_cons] at h
      by_cases hja : jsWhitespace a = true
      · rw [if_pos hja] at h
        have hlen := congrArg List.length h
        have hle := (List.dropWhile_suffix jsWhitespace
          (l := l' ++ t)).sublist.length_le
        rw [List.length_cons] at hlen
        omega
      · exact hja
    rw [List.dropWhile_cons, if_neg hna]

theorem jsTrim_idem (l : List Char) : jsTrim (jsTrim l) = jsTrim l := by
  unfold jsTrim
  rw [dropWhile_rdropWhile _ (List.dropWhile_idempotent _ _),
    List.rdropWhile_idempotent]

theorem mem_jsTrim (c : Char) (l : List Char) (h : c ∈ jsTrim l) : c ∈ l := by
  unfold jsTrim at h
  exact (List.dropWhile_suffix jsWhitespace).sublist.subset
    (( List.rdropWhile_prefix jsWhitespace _).sublist.subset h)

theorem loadField_elem (s : List Char) (e : List Char) (he : e ∈ loadField s) :
    jsTrim e = e ∧ ',' ∉ e := by
  unfold loadField at he
  obtain ⟨p, hp, hpe⟩ := List.mem_map.mp (List.mem_of_mem_filter he)
  subst hpe
  refine ⟨jsTrim_idem p, fun hc => ?_⟩
  exact splitCommaAux_pieces_no_comma s [] (by simp) p hp (mem_jsTrim ',' p hc)

theorem trimmed_map_filter (l : List (List Char))
    (h : ∀ u ∈ l, u ≠ [] ∧ jsTrim u = u) :
    (l.map jsTrim).filter (fun t => ! t.isEmpty) = l := by
  induction l with
  | nil => rfl
  | cons u rest ih =>
    have hu := h u (by simp)
    have hne : u.isEmpty = false := by
      cases u with
      | nil => exact absurd rfl hu.1
      | cons a t => rfl
    rw [List.map_cons, List.filter_cons, hu.2, hne]
    simp only [Bool.not_false, if_pos]
    rw [ih (fun v hv => h v (by simp [hv]))]

theorem countStatus_sum (items : List RunItem) :
    countStatus Status.kept items + countStatus Status.skipped items +
      countStatus Status.filtered items = items.length := by
  induction items with
  | nil => simp [countStatus]
  | cons it rest ih =>
    simp only [countStatus, List.countP_cons, List.length_cons] at ih ⊢
    cases hst : it.status <;> simp [hst] <;> omega

theorem mkSummary_partition (dr : Bool) (items : List RunItem) :
    (mkSummary dr items).kept_count + (mkSummary dr items).skipped_count +
      (mkSummary dr items).filtered_count = (mkSummary dr items).items.length := by
  simpa [mkSummary] using countStatus_sum items

/-! ## Claim theorems -/

/-- C1: For every article and every ruleset, `evaluate` performs its checks
in the fixed order `max_age_days`, `min_words`, `language`, `exclude_any`,
`include_all`, `include_any`; the first failing check short-circuits the
evaluation, and the returned `PassResult` has `passed = false` with
`failed_rule` naming exactly that first failing check (and passes with no
failed rule when every check passes).  `evaluate` is a pure function of
`(now, article, ruleset)`, hence deterministic for a fixed `now`. -/
theorem evaluate_fixed_order_first_failure (now : Int) (a : Article) (r : RuleSet) :
    evaluate now a r =
      { passed := (firstFailingRule now a r).isNone
        failed_rule := firstFailingRule now a r } := by
  unfold evaluate firstFailingRule orderedChecks
  cases h1 : passAgeCheck now a r <;>
  cases h2 : passWordsCheck a r <;>
  cases h3 : passLanguageCheck a r <;>
  cases h4 : passExcludeCheck a r <;>
  cases h5 : passIncludeAllCheck a r <;>
  cases h6 : passIncludeAnyCheck a r <;>
  simp [h1, h2, h3, h4, h5, h6, List.find?]

/-- C2: The article survives the filtering stage iff it passes BOTH the
global and the feed-specific rule set, each evaluated independently; the
global rule set is evaluated first, so when it fails its first failing
check is the reported reason, and otherwise the feed-specific result is
reported; a `filtered` item's recorded reason is that failed rule. -/
theorem filtering_two_pass_both_rulesets (env : Env) (fr : RuleSet) (a : Article) :
    ((evaluateCombined env.now a env.globalRules fr).passed = true ↔
      (evaluate env.now a env.globalRules).passed = true ∧
        (evaluate env.now a fr).passed = true) ∧
    ((evaluate env.now a env.globalRules).passed = false →
      evaluateCombined env.now a env.globalRules fr =
        evaluate env.now a env.globalRules) ∧
    ((evaluate env.now a env.globalRules).passed = true →
      evaluateCombined env.now a env.globalRules fr = evaluate env.now a fr) ∧
    ((processArticle env fr a).item.status = Status.filtered ↔
      (evaluateCombined env.now a env.globalRules fr).passed = false) ∧
    ((evaluateCombined env.now a env.globalRules fr).passed = false →
      (processArticle env fr a).item.reason =
        (evaluateCombined env.now a env.globalRules fr).failed_rule.getD "") := by
  refine ⟨?_, ?_, ?_, ?_, ?_⟩
  · unfold evaluateCombined
    cases hg : (evaluate env.now a env.globalRules).passed <;> simp [hg]
  · intro hg; simp [evaluateCombined, hg]
  · intro hg; simp [evaluateCombined, hg]
  · cases hp : (evaluateCombined env.now a env.globalRules fr).passed
    · simp [processArticle, hp]
    · simp only [processArticle, hp, if_true]
      cases hc : classifyAdapter env.weights env.threshold fr.source_weight
          env.classifyRaw a with
      | none => simp [hc]
      | some sr => cases hk : sr.keep <;> simp [hc, hk]
  · intro hp; simp [processArticle, hp]

/-- C2 witness: with a passing global rule set and a word-count-failing feed
rule set, the combined evaluation reports the feed rule set's result. -/
theorem filtering_two_pass_both_rulesets_witness :
    evaluateCombined sampleEnv.now sampleArticle sampleEnv.globalRules strictRuleSet =
      evaluate sampleEnv.now sampleArticle strictRuleSet :=
  (filtering_two_pass_both_rulesets sampleEnv strictRuleSet sampleArticle).2.2.1
    (by decide)

/-- C3: For every completed run (`run` returning a summary), the summary
satisfies `kept_count + skipped_count + filtered_count = items.length`:
each processed article lands in exactly one of the three buckets, and each
count is the number of items with that status by construction of
`mkSummary`. -/
theorem run_summary_counts_partition (args : RunArgs) (ext : ExternalOracles)
    (w : World) (st : RunStatus) (s : RunSummary)
    (h : (run args ext w st).1 = Except.ok s) :
    s.kept_count + s.skipped_count + s.filtered_count = s.items.length := by
  unfold run at h
  by_cases hr : st.running
  · simp [hr] at h
  · by_cases hk : w.openaiKey.isNone
    · simp [hr, hk] at h
    · simp [hr, hk] at h
      rw [← h]
      simpa [runBody] using
        mkSummary_partition args.dry_run
          ((processFeeds
              { now := ext.now, globalRules := w.config.globalRules,
                weights := w.config.weights, threshold := w.config.threshold,
                classifyRaw := ext.classifyRaw, gen1 := ext.gen1, gen2 := ext.gen2 }
              args.limit
              ((selectFeeds w.config args.feeds).map
                fun fc => (fc.ruleset, ext.fetch fc))).map (fun o => o.item))

/-- C3 witness: a concrete dry run over one feed with one article returns a
summary whose three counts sum to its item count. -/
theorem run_summary_counts_partition_witness :
    (mkSummary true [(processArticle sampleEnv emptyRuleSet sampleArticle).item]).kept_count +
      (mkSummary true [(processArticle sampleEnv emptyRuleSet sampleArticle).item]).skipped_count +
      (mkSummary true [(processArticle sampleEnv emptyRuleSet sampleArticle).item]).filtered_count =
      (mkSummary true [(processArticle sampleEnv emptyRuleSet sampleArticle).item]).items.length :=
  run_summary_counts_partition { dry_run := true, limit := none, feeds := [] }
    sampleOracles sampleWorld idleStatus
    (mkSummary true [(processArticle sampleEnv emptyRuleSet sampleArticle).item]) rfl

/-- C4: For every article that passes filtering and is classified
successfully, the classifier result's `keep` equals
`importance >= importance_threshold`, where the importance is the
configured weighted composite of the four sub-scores multiplied by the
feed's `source_weight`; and when `keep` is false the orchestrator records
the article with `status = skipped` and makes no generation call for it. -/
theorem classifier_keep_threshold_skip (env : Env) (fr : RuleSet) (a : Article)
    (sr : ScoreResult)
    (hpass : (evaluateCombined env.now a env.globalRules fr).passed = true)
    (hcls : classifyAdapter env.weights env.threshold fr.source_weight
      env.classifyRaw a = some sr) :
    (∃ raw, env.classifyRaw a = some raw ∧ validRange raw = true ∧
      sr.importance = importanceOf env.weights fr.source_weight raw) ∧
    sr.keep = decide (sr.importance ≥ env.threshold) ∧
    (sr.keep = false →
      (processArticle env fr a).item.status = Status.skipped ∧
      (processArticle env fr a).genCalls = 0) := by
  have hcls0 := hcls
  unfold classifyAdapter at hcls0
  cases ho : env.classifyRaw a with
  | none => rw [ho] at hcls0; simp at hcls0
  | some raw =>
    rw [ho] at hcls0
    simp only [] at hcls0
    by_cases hv : validRange raw = true
    · rw [if_pos hv] at hcls0
      have hsr := Option.some.inj hcls0
      subst hsr
      refine ⟨⟨raw, rfl, hv, rfl⟩, rfl, fun hk => ?_⟩
      have hkn : ¬ env.threshold ≤ importanceOf env.weights fr.source_weight raw := by
        simpa using hk
      constructor <;> simp [processArticle, hpass, hcls, hkn]
    · rw [if_neg hv] at hcls0; simp at hcls0

/-- C4 witness: with composite importance 4 against threshold 5 the sample
article is recorded skipped and no generation call is made. -/
theorem classifier_keep_threshold_skip_witness :
    (processArticle sampleEnv emptyRuleSet sampleArticle).item.status = Status.skipped ∧
    (processArticle sampleEnv emptyRuleSet sampleArticle).genCalls = 0 :=
  (classifier_keep_threshold_skip sampleEnv emptyRuleSet sampleArticle
    { topic := "Generativ AI", relevance := 1, novelty := 1, authority := 1,
      actionability := 1, importance := 4, keep := false, reason_short := "low" }
    (by decide)
    (by norm_num [classifyAdapter, sampleEnv, lowRawScores, validRange,
      importanceOf, unitWeights, emptyRuleSet])).2.2 rfl

/-- C5: For every run invoked with `dry_run = true`, the external state —
the config store, the secret store and the persistence adapter's documents
— is unchanged by the run: the pipeline executes but the returned world
equals the input world, so no `createDocument` (or other external write)
happened. -/
theorem dry_run_leaves_world_unchanged (args : RunArgs) (ext : ExternalOracles)
    (w : World) (st : RunStatus) (h : args.dry_run = true) :
    (run args ext w st).2.1 = w := by
  unfold run
  by_cases hr : st.running
  · simp [hr]
  · by_cases hk : w.openaiKey.isNone
    · simp [hr, hk]
    · simp [hr, hk, runBody, h]

/-- C5 witness: a concrete dry run over the sample world returns the world
unchanged. -/
theorem dry_run_leaves_world_unchanged_witness :
    (run { dry_run := true, limit := none, feeds := [] } sampleOracles
      sampleWorld idleStatus).2.1 = sampleWorld :=
  dry_run_leaves_world_unchanged { dry_run := true, limit := none, feeds := [] }
    sampleOracles sampleWorld idleStatus rfl

/-- C6: A `run()` call made while another run is active
(`RunStatus.running = true`) fails with `AlreadyRunningError`, leaves the
world untouched and leaves the in-progress run's `RunStatus` exactly as it
was. -/
theorem single_flight_reject (args : RunArgs) (ext : ExternalOracles)
    (w : World) (st : RunStatus) (h : st.running = true) :
    run args ext w st = (Except.error RunError.alreadyRunning, w, st) := by
  simp [run, h]

/-- C6 witness: a run triggered against a busy status is rejected with the
status unmodified. -/
theorem single_flight_reject_witness :
    run { dry_run := false, limit := some 5, feeds := [] } sampleOracles
      sampleWorld busyStatus =
      (Except.error RunError.alreadyRunning, sampleWorld, busyStatus) :=
  single_flight_reject { dry_run := false, limit := some 5, feeds := [] }
    sampleOracles sampleWorld busyStatus rfl

/-- C7: On every exit path of a `run()` that actually starts (the status was
not already running) — normal completion or precondition failure —
`RunStatus.running` is false when `run` returns. -/
theorem running_cleared_on_every_exit (args : RunArgs) (ext : ExternalOracles)
    (w : World) (st : RunStatus) (h : st.running = false) :
    ((run args ext w st).2.2).running = false := by
  unfold run
  by_cases hk : w.openaiKey.isNone <;> simp [h, hk]

/-- C7 witness: both the missing-credential exit and the normal completion
exit leave `running = false`. -/
theorem running_cleared_on_every_exit_witness :
    ((run { dry_run := false, limit := none, feeds := [] } sampleOracles
      { sampleWorld with openaiKey := none } idleStatus).2.2).running = false ∧
    ((run { dry_run := false, limit := none, feeds := [] } sampleOracles
      sampleWorld idleStatus).2.2).running = false :=
  ⟨running_cleared_on_every_exit { dry_run := false, limit := none, feeds := [] }
      sampleOracles { sampleWorld with openaiKey := none } idleStatus rfl,
   running_cleared_on_every_exit { dry_run := false, limit := none, feeds := [] }
      sampleOracles sampleWorld idleStatus rfl⟩

/-- C8 counterexample: it is NOT the case that, while a run is displayed as
active, the dashboard stops polling exactly when a snapshot with
`running = false` is observed — the `runSettled` event (the `finally` block
of `runPipeline`, which fires when the `/api/run/` request resolves or
fails) also clears `isRunning`, and with it the polling interval, without
any such snapshot having been observed. -/
theorem polling_stops_exactly_on_idle_snapshot_counterexample :
    ¬ ∀ (e : ClientEvent) (c : ClientState), c.isRunning = true →
      (((clientStep e c).isRunning = false) ↔
        ∃ st, e = ClientEvent.poll st ∧ st.running = false) := by
  intro h
  have h2 := (h ClientEvent.runSettled
    { isRunning := true, statusMessage := "", progress := none } rfl).mp rfl
  obtain ⟨st, hst, -⟩ := h2
  exact ClientEvent.noConfusion hst

/-- C8 (amended): the dashboard polls the status endpoint every 2000 ms
while a run is displayed as active; a poll tick observing
`running = false` clears the status message and the progress display and
stops polling, a tick observing `running = true` keeps polling; but
polling also stops whenever the `/api/run/` request itself settles, even
if no `running = false` snapshot was observed. -/
theorem polling_until_idle_or_settled :
    pollIntervalMs = 2000 ∧
    (∀ (st : StatusSnapshot) (c : ClientState), st.running = false →
      pollTick st c = { isRunning := false, statusMessage := "", progress := none }) ∧
    (∀ (st : StatusSnapshot) (c : ClientState), st.running = true →
      (pollTick st c).isRunning = c.isRunning ∧
        (pollTick st c).statusMessage = st.message) ∧
    (∀ c : ClientState, (clientStep ClientEvent.runSettled c).isRunning = false) := by
  refine ⟨rfl, ?_, ?_, ?_⟩
  · intro st c h; simp [pollTick, h]
  · intro st c h; simp [pollTick, h]
  · intro c; rfl

/-- C8 witness: an idle snapshot observed mid-run clears the display and
stops polling. -/
theorem polling_until_idle_or_settled_witness :
    pollTick ⟨false, "", 3, 3⟩ ⟨true, "Bearbetar", some (1, 3)⟩ =
      ⟨false, "", none⟩ :=
  polling_until_idle_or_settled.2.1 ⟨false, "", 3, 3⟩
    ⟨true, "Bearbetar", some (1, 3)⟩ rfl

/-- C9: the dashboard's run request carries a `limit` query parameter iff
the entered limit is a number other than zero (an entered 0 or an empty
field sends nothing); and in the pipeline an absent limit bounds nothing —
every fetched article of a feed is processed — whereas a zero budget
processes none, so omitting the parameter means unlimited, never "process
zero articles". -/
theorem limit_param_iff_nonzero :
    (∀ (d : Bool) (limit : Option Int) (fs : List String),
      ("limit" ∈ (buildRunParams d limit fs).map Prod.fst) ↔
        ∃ n, limit = some n ∧ n ≠ 0) ∧
    (∀ (env : Env) (fr : RuleSet) (arts : List Article),
      ((processFeedArticles env fr none arts).1).length = arts.length) ∧
    (∀ (env : Env) (fr : RuleSet) (arts : List Article),
      (processFeedArticles env fr (some 0) arts).1 = []) := by
  refine ⟨?_, ?_, ?_⟩
  · intro d limit fs
    cases limit with
    | none => simp [buildRunParams]
    | some n =>
      by_cases hn : n = 0 <;> simp [buildRunParams, hn]
  · intro env fr arts
    induction arts with
    | nil => simp [processFeedArticles]
    | cons a rest ih => simp [processFeedArticles, ih]
  · intro env fr arts
    cases arts <;> simp [processFeedArticles]

/-- C9 witness: an entered limit of 5 is sent, an entered 0 is not. -/
theorem limit_param_iff_nonzero_witness :
    ("limit" ∈ (buildRunParams true (some 5) []).map Prod.fst) ∧
      ¬ ("limit" ∈ (buildRunParams true (some 0) ["f"]).map Prod.fst) :=
  ⟨(limit_param_iff_nonzero.1 true (some 5) []).mpr ⟨5, rfl, by decide⟩,
   fun h => by
     obtain ⟨n, hn, hz⟩ := (limit_param_iff_nonzero.1 true (some 0) ["f"]).mp h
     exact hz (Option.some.inj hn.symm)⟩

/-- C10: for every keyword list whose terms are non-empty, comma-free and
carry no surrounding whitespace, saving the global rules (joining with
`','`) and reloading them (splitting on `','`, trimming, dropping empty
pieces) returns the original list; and any list containing a term with a
comma or with surrounding whitespace does not round-trip. -/
theorem keyword_fields_round_trip :
    (∀ ts : List (List Char),
      (∀ t ∈ ts, t ≠ [] ∧ ',' ∉ t ∧ jsTrim t = t) →
      roundTripField ts = ts) ∧
    (∀ (ts : List (List Char)) (t : List Char), t ∈ ts →
      (',' ∈ t ∨ jsTrim t ≠ t) → roundTripField ts ≠ ts) := by
  constructor
  · intro ts h
    cases ts with
    | nil => rfl
    | cons t rest =>
      unfold roundTripField loadField saveField
      rw [if_pos (by simp)]
      rw [splitComma_joinComma (t :: rest) (by simp)
        (fun u hu c hc hceq => by subst hceq; exact (h u hu).2.1 hc)]
      exact trimmed_map_filter (t :: rest) (fun u hu => ⟨(h u hu).1, (h u hu).2.2⟩)
  · intro ts t ht hbad heq
    rw [← heq] at ht
    have hgood := loadField_elem (saveField ts) t ht
    rcases hbad with hc | htr
    · exact hgood.2 hc
    · exact htr hgood.1

/-- C10 witness: the list of terms `ai`, `ml` round-trips through save and
load unchanged. -/
theorem keyword_fields_round_trip_witness :
    roundTripField [['a', 'i'], ['m', 'l']] = [['a', 'i'], ['m', 'l']] :=
  keyword_fields_round_trip.1 [['a', 'i'], ['m', 'l']] (by decide)

end RssArticles

